import Mathlib

/-!
Verification of the process supervision engine of Game-Server-Launcher
(`server_manager.py`) against its specification, via a shallow embedding.

Modelling conventions:
  - File systems are modelled as `String → Bool` (existence oracle) or
    `String → Option String` (content map) where needed.
  - The platform check `platform.system().lower().startswith("win")` is a
    Boolean parameter `isWin`.
  - Real time in `stop_server`'s poll loop is discretised into ticks of
    0.2 seconds (one tick per `time.sleep(0.2)`); a `timeout` of `T`
    seconds is `5 * T` ticks, matching `(time.time() - start) < timeout`.
  - Child processes are abstract oracles: the tick at which the process
    exits on its own (if ever), and whether `poll()` reports termination
    right after a `kill()` attempt.
  - Exceptions that the Python code catches and logs are modelled as
    Boolean failure oracles; the embedded functions are total, which is
    exactly the "never propagates" behaviour.
-/

namespace GSL

/-! ### Path model (the fragment of `pathlib` used by `_resolve_script`)

A path is a raw string; its final component is everything after the last
`/`.  `suffixChars` implements `PurePath.suffix`: the part of the name
from its last dot, provided that dot is neither the first nor the last
character of the name.  `withSuffixStr` implements `PurePath.with_suffix`:
drop the current suffix of the name and append the new one. -/

def fnChars (p : List Char) : List Char :=
  (p.reverse.takeWhile (fun c => c != '/')).reverse

def dirChars (p : List Char) : List Char :=
  (p.reverse.dropWhile (fun c => c != '/')).reverse

def suffixChars (n : List Char) : List Char :=
  let j := n.reverse.findIdx (fun c => c == '.')
  if j < n.length && 0 < j && j < n.length - 1 then
    n.drop (n.length - 1 - j)
  else []

def suffixStr (p : String) : String :=
  ⟨suffixChars (fnChars p.data)⟩

def withSuffixStr (p : String) (newSfx : String) : String :=
  let n := fnChars p.data
  ⟨dirChars p.data ++ n.take (n.length - (suffixChars n).length) ++ newSfx.data⟩

/-- Embedding of `ServerManager._resolve_script` (server_manager.py:97-118).
`ex` is the filesystem existence oracle (`Path.exists`); the result `none`
models raising `FileNotFoundError` ("Script not found"). -/
def resolveScript (isWin : Bool) (ex : String → Bool) (path : String) : Option String :=
  if ex path then some path
  else if isWin && (suffixStr path == ".sh") && ex (withSuffixStr path ".bat") then
    some (withSuffixStr path ".bat")
  else if !isWin && (suffixStr path == ".bat") && ex (withSuffixStr path ".sh") then
    some (withSuffixStr path ".sh")
  else none

/-! ### Process handles and the supervisor registry

`Handle` embeds the observable state of a `ServerProcess`
(server_manager.py:18-30): display name, buffered output lines,
the stop-requested flag (initially `False`), and whether the underlying
OS process is still running (`poll() is None`).  The registry
`ServerManager._processes` is an association list with the update
semantics of a Python dict. -/

structure Handle where
  name : String
  stdout_lines : List String
  stop_requested : Bool
  alive : Bool
deriving DecidableEq

/-- Embedding of `ServerProcess.__init__` (server_manager.py:23-30):
fresh handles carry an empty buffer and a cleared stop-requested flag,
and wrap a running process. -/
def newHandle (name : String) : Handle :=
  ⟨name, [], false, true⟩

def regFind : List (String × Handle) → String → Option Handle
  | [], _ => none
  | (k, h) :: rest, id => if k = id then some h else regFind rest id

def regSet : List (String × Handle) → String → Handle → List (String × Handle)
  | [], id, h => [(id, h)]
  | (k, h0) :: rest, id, h =>
      if k = id then (id, h) :: rest else (k, h0) :: regSet rest id h

def regErase : List (String × Handle) → String → List (String × Handle)
  | [], _ => []
  | (k, h0) :: rest, id => if k = id then rest else (k, h0) :: regErase rest id

/-- Embedding of `ServerManager.is_running` (server_manager.py:278-281). -/
def is_running (reg : List (String × Handle)) (id : String) : Bool :=
  match regFind reg id with
  | some h => h.alive
  | none => false

def joinLines (ls : List String) : String :=
  String.intercalate "\n" ls

/-- Embedding of `ServerManager.get_console` (server_manager.py:283-288)
composed with `ServerProcess.collect_console` (server_manager.py:81-86):
`none` models the Python `None` ("no such id"). -/
def get_console (reg : List (String × Handle)) (id : String) : Option String :=
  match regFind reg id with
  | none => none
  | some sp => some (joinLines sp.stdout_lines)

/-! ### Starting a server (registry-level effects)

`start_server` (server_manager.py:120-173) at the granularity the claims
need: the duplicate-start guard, script resolution (whose failure
propagates `FileNotFoundError`, recorded in `raised`), and registration
of a fresh handle.  `spawned` records whether a child process was
created. -/

structure StartResult where
  raised : Bool
  reg : List (String × Handle)
  spawned : Bool
deriving DecidableEq

/-- Embedding of `ServerManager.start_server` (server_manager.py:120-173)
restricted to its registry effects and error behaviour. -/
def start_server (reg : List (String × Handle)) (id name : String)
    (isWin : Bool) (ex : String → Bool) (script : String) : StartResult :=
  let live := match regFind reg id with
    | some h => h.alive
    | none => false
  if live then ⟨false, reg, false⟩
  else
    match resolveScript isWin ex script with
    | none => ⟨true, reg, false⟩
    | some _ => ⟨false, regSet reg id (newHandle name), true⟩

/-! ### Stopping a server

The poll loop of `stop_server` (server_manager.py:204-240) runs in ticks
of 0.2 seconds: at tick `t` the loop checks `poll()`; if the process is
still running and fewer than `5 * timeout` ticks have elapsed it sleeps
one tick.  `StopOracle.exitTick` is the earliest tick at which `poll()`
reports exit without a kill (or `none` if the process never exits on its
own); `deadAfterKill` is what `poll()` reports right after the `kill()`
attempt. -/

structure StopOracle where
  exitTick : Option Nat
  deadAfterKill : Bool
deriving DecidableEq

def polled (o : StopOracle) (t : Nat) : Bool :=
  match o.exitTick with
  | none => false
  | some e => decide (e ≤ t)

def loopEndAux (o : StopOracle) : Nat → Nat → Nat
  | t, 0 => t
  | t, r + 1 => if polled o t then t else loopEndAux o (t + 1) r

/-- Observable actions of `stop_server`, in program order. -/
inductive StopAction where
  | setFlag
  | sendGraceful
  | sleepTick
  | kill
deriving DecidableEq

/-- Embedding of `ServerManager.stop_server` (server_manager.py:204-240):
returns the Boolean result, the updated registry, and the trace of
observable actions.  `alive` of the target handle afterwards is the
negation of the result (true result = confirmed terminated). -/
def stop_server (reg : List (String × Handle)) (id : String)
    (o : StopOracle) (timeout : Nat) :
    Bool × List (String × Handle) × List StopAction :=
  match regFind reg id with
  | none => (true, reg, [])
  | some h =>
    let tEnd := loopEndAux o 0 (5 * timeout)
    let exited := polled o tEnd
    let res := if exited then true else o.deadAfterKill
    let tr := StopAction.setFlag :: StopAction.sendGraceful ::
      (List.replicate tEnd StopAction.sleepTick ++
        if exited then [] else [StopAction.kill])
    (res, regSet reg id { h with stop_requested := true, alive := !res }, tr)

/-- Embedding of `ServerManager.restart_server` (server_manager.py:242-265):
graceful stop with a 15 second timeout, one extra best-effort kill on a
still-live handle if the stop reported failure (`killSucceeds` tells
whether that kill terminates the process), unconditional removal of the
registry entry, then a fresh start. -/
def restart_server (reg : List (String × Handle)) (id name : String)
    (isWin : Bool) (ex : String → Bool) (script : String)
    (o : StopOracle) (killSucceeds : Bool) : StartResult :=
  let s1 := stop_server reg id o 15
  let reg1 := s1.2.1
  let reg2 :=
    if s1.1 then reg1
    else
      match regFind reg1 id with
      | some h => if h.alive then regSet reg1 id { h with alive := !killSucceeds } else reg1
      | none => reg1
  let reg3 := regErase reg2 id
  start_server reg3 id name isWin ex script

/-! ### The exit watcher and crash-log persistence

`_watch_process` (server_manager.py:175-202) after the process has
exited: `rc` is the recorded return code, `hasCb` whether an output
callback was supplied, `writeFails` whether opening/writing the crash-log
file raises (caught and logged), and `fs` the content of the file system
as a map from file name to content.  The first component of the result is
the list of synthetic lines delivered to the callback, in order. -/

def underscoreSpaces (s : String) : String :=
  ⟨s.data.map (fun c => if c = ' ' then '_' else c)⟩

def exitMarker (rc : Int) : String :=
  "[PROCESS EXITED] Return code " ++ toString rc

def writeFile (fs : String → Option String) (n c : String) :
    String → Option String :=
  fun k => if k = n then some c else fs k

/-- Embedding of `ServerManager._watch_process` (server_manager.py:175-202)
from the moment `proc.wait()` returns.  `sp?` is the registry lookup of
the handle (`none` when the id is not registered, in which case the
watcher returns at once). -/
def watch_process (sp? : Option Handle) (rc : Int) (hasCb : Bool)
    (writeFails : Bool) (fs : String → Option String) :
    List String × (String → Option String) :=
  match sp? with
  | none => ([], fs)
  | some sp =>
    if !sp.stop_requested then
      let markers := if hasCb then [exitMarker rc] else []
      let logname := underscoreSpaces (sp.name ++ "-latest.log")
      let fs1 := if writeFails then fs
        else writeFile fs logname (joinLines sp.stdout_lines)
      (markers, fs1)
    else ([], fs)

/-! ### Output capture

The reader loop of `ServerProcess.start_readers` (server_manager.py:32-54)
for one stream.  A stream is the sequence of results of successive
`readline()` calls: `chunk s` is a returned string (the empty string is
end-of-stream, where `iter(stream.readline, "")` stops), `raises` a read
error.  `cbF line` tells whether the `on_output` callback raises on
`line`; the whole loop body sits in one `try`/`except`, so a read or
callback error ends the loop with the error logged (third component
`true`) and nothing escapes.  `rstripNL` is Python's `rstrip("\n")`.
The result is (buffer appends, callback deliveries, errorLogged). -/

inductive ReadResult where
  | chunk : String → ReadResult
  | raises : ReadResult
deriving DecidableEq

def rstripNL (s : String) : String :=
  ⟨(s.data.reverse.dropWhile (fun c => c == '\n')).reverse⟩

/-- Embedding of the `_reader` closure of `ServerProcess.start_readers`
(server_manager.py:36-47) run over one whole stream. -/
def readerRun : List ReadResult → (String → Bool) → List String × List String × Bool
  | [], _ => ([], [], false)
  | ReadResult.raises :: _, _ => ([], [], true)
  | ReadResult.chunk s :: rest, cbF =>
    if s = "" then ([], [], false)
    else
      let t := rstripNL s
      if cbF t then ([t], [], true)
      else
        let r := readerRun rest cbF
        (t :: r.1, t :: r.2.1, r.2.2)

/-! ### Sending commands

`ServerProcess.send_command` (server_manager.py:56-79) and
`ServerManager.send_command` (server_manager.py:267-276).  `hasStdin`
models `self.process.stdin` being non-`None` (always true for processes
spawned by `start_server`, which uses `stdin=subprocess.PIPE`);
`write1Fails`/`write2Fails` model the first write attempt and the
fallback write raising; `flushFails` models `flush()` raising, which the
code swallows.  The second component is what reached the process's
standard input. -/

structure SendOracle where
  hasStdin : Bool
  write1Fails : Bool
  write2Fails : Bool
  flushFails : Bool
deriving DecidableEq

/-- Embedding of `ServerProcess.send_command` (server_manager.py:56-79);
`alive` is `poll() is None`. -/
def sp_send_command (alive : Bool) (o : SendOracle) (cmd : String) :
    Bool × Option String :=
  if o.hasStdin && alive then
    if !o.write1Fails then (true, some (cmd ++ "\n"))
    else if !o.write2Fails then (true, some (cmd ++ "\n"))
    else (false, none)
  else (false, none)

/-- Embedding of `ServerManager.send_command` (server_manager.py:267-276). -/
def send_command (reg : List (String × Handle)) (id : String)
    (o : SendOracle) (cmd : String) : Bool × Option String :=
  match regFind reg id with
  | none => (false, none)
  | some h => sp_send_command h.alive o cmd

/-! ### Registry lemmas -/

def regKeys (reg : List (String × Handle)) : List String :=
  reg.map Prod.fst

theorem regFind_regSet_self : ∀ (reg : List (String × Handle)) (id : String) (h : Handle),
    regFind (regSet reg id h) id = some h
  | [], id, h => by simp [regSet, regFind]
  | (k, h0) :: rest, id, h => by
    by_cases hk : k = id
    · simp [regSet, regFind, hk]
    · simp [regSet, regFind, hk, regFind_regSet_self rest id h]

theorem regFind_regSet_ne : ∀ (reg : List (String × Handle)) (id id' : String) (h : Handle),
    id' ≠ id → regFind (regSet reg id h) id' = regFind reg id'
  | [], id, id', h, hne => by simp [regSet, regFind, Ne.symm hne]
  | (k, h0) :: rest, id, id', h, hne => by
    by_cases hk : k = id
    · subst hk
      simp [regSet, regFind, Ne.symm hne]
    · simp [regSet, regFind, hk, regFind_regSet_ne rest id id' h hne]

theorem regFind_eq_none_of_not_mem : ∀ (reg : List (String × Handle)) (id : String),
    id ∉ regKeys reg → regFind reg id = none
  | [], _, _ => rfl
  | (k, h0) :: rest, id, hmem => by
    have h1 : ¬k = id := fun he => hmem (by simp [regKeys, he])
    have h2 : id ∉ regKeys rest := fun hm => hmem (by
      simp only [regKeys, List.map_cons, List.mem_cons]
      exact Or.inr hm)
    simp [regFind, h1, regFind_eq_none_of_not_mem rest id h2]

theorem mem_keys_regSet : ∀ (reg : List (String × Handle)) (id x : String) (h : Handle),
    x ∈ regKeys (regSet reg id h) → x ∈ regKeys reg ∨ x = id
  | [], id, x, h, hx => by
    simp [regSet, regKeys] at hx
    exact Or.inr hx
  | (k, h0) :: rest, id, x, h, hx => by
    by_cases hk : k = id
    · subst hk
      rw [show regSet ((k, h0) :: rest) k h = (k, h) :: rest from by simp [regSet]] at hx
      rw [show regKeys ((k, h) :: rest) = k :: regKeys rest from rfl, List.mem_cons] at hx
      rcases hx with hx | hx
      · exact Or.inr hx
      · exact Or.inl (by
          rw [show regKeys ((k, h0) :: rest) = k :: regKeys rest from rfl]
          exact List.mem_cons_of_mem _ hx)
    · simp only [regSet, if_neg hk] at hx
      rw [show regKeys ((k, h0) :: regSet rest id h) = k :: regKeys (regSet rest id h)
        from rfl, List.mem_cons] at hx
      rcases hx with hx | hx
      · exact Or.inl (by
          rw [show regKeys ((k, h0) :: rest) = k :: regKeys rest from rfl]
          exact hx ▸ List.mem_cons_self _ _)
      · rcases mem_keys_regSet rest id x h hx with hin | hin
        · exact Or.inl (by
            rw [show regKeys ((k, h0) :: rest) = k :: regKeys rest from rfl]
            exact List.mem_cons_of_mem _ hin)
        · exact Or.inr hin

theorem nodup_keys_regSet : ∀ (reg : List (String × Handle)) (id : String) (h : Handle),
    (regKeys reg).Nodup → (regKeys (regSet reg id h)).Nodup
  | [], id, h, _ => by simp [regSet, regKeys]
  | (k, h0) :: rest, id, h, hnd => by
    rw [show regKeys ((k, h0) :: rest) = k :: regKeys rest from rfl, List.nodup_cons] at hnd
    by_cases hk : k = id
    · subst hk
      rw [show regSet ((k, h0) :: rest) k h = (k, h) :: rest from by simp [regSet]]
      rw [show regKeys ((k, h) :: rest) = k :: regKeys rest from rfl, List.nodup_cons]
      exact hnd
    · have hih := nodup_keys_regSet rest id h hnd.2
      have hnotin : k ∉ regKeys (regSet rest id h) := by
        intro hmem
        rcases mem_keys_regSet rest id k h hmem with hin | hin
        · exact hnd.1 hin
        · exact hk hin
      rw [show regSet ((k, h0) :: rest) id h = (k, h0) :: regSet rest id h
        from by simp [regSet, hk]]
      rw [show regKeys ((k, h0) :: regSet rest id h) = k :: regKeys (regSet rest id h)
        from rfl, List.nodup_cons]
      exact ⟨hnotin, hih⟩

theorem regFind_regErase_self : ∀ (reg : List (String × Handle)) (id : String),
    (regKeys reg).Nodup → regFind (regErase reg id) id = none
  | [], _, _ => rfl
  | (k, h0) :: rest, id, hnd => by
    rw [show regKeys ((k, h0) :: rest) = k :: regKeys rest from rfl, List.nodup_cons] at hnd
    by_cases hk : k = id
    · subst hk
      simpa [regErase] using regFind_eq_none_of_not_mem rest k hnd.1
    · simpa [regErase, regFind, hk] using regFind_regErase_self rest id hnd.2

/-! ### Claim theorems -/

/-- C3: script resolution returns the path verbatim when it exists; on
Windows a missing `.sh` path falls back to its existing `.bat`
counterpart, on non-Windows a missing `.bat` path falls back to its
existing `.sh` counterpart; in every other case resolution fails
(`FileNotFoundError`, "Script not found"), with no other fallback. -/
theorem resolve_script_policy (isWin : Bool) (ex : String → Bool) (path : String) :
    (ex path = true → resolveScript isWin ex path = some path)
    ∧ (ex path = false → isWin = true → suffixStr path = ".sh" →
        ex (withSuffixStr path ".bat") = true →
        resolveScript isWin ex path = some (withSuffixStr path ".bat"))
    ∧ (ex path = false → isWin = false → suffixStr path = ".bat" →
        ex (withSuffixStr path ".sh") = true →
        resolveScript isWin ex path = some (withSuffixStr path ".sh"))
    ∧ (ex path = false →
        (isWin = true → suffixStr path = ".sh" → ex (withSuffixStr path ".bat") = false) →
        (isWin = false → suffixStr path = ".bat" → ex (withSuffixStr path ".sh") = false) →
        resolveScript isWin ex path = none) := by
  refine ⟨?_, ?_, ?_, ?_⟩
  · intro hex
    simp [resolveScript, hex]
  · intro hex hwin hsfx halt
    simp [resolveScript, hex, hwin, hsfx, halt]
  · intro hex hwin hsfx halt
    simp [resolveScript, hex, hwin, hsfx, halt]
  · intro hex h1 h2
    cases isWin with
    | true =>
      by_cases hsfx : suffixStr path = ".sh"
      · simp [resolveScript, hex, hsfx, h1 rfl hsfx]
      · simp [resolveScript, hex, hsfx]
    | false =>
      by_cases hsfx : suffixStr path = ".bat"
      · simp [resolveScript, hex, hsfx, h2 rfl hsfx]
      · simp [resolveScript, hex, hsfx]

theorem resolve_script_policy_witness :
    resolveScript true (fun s => s == "dir/run.bat") "dir/run.sh" = some "dir/run.bat" := by
  have h := (resolve_script_policy true (fun s => s == "dir/run.bat") "dir/run.sh").2.1
  simpa using h (by decide) rfl (by decide) (by decide)

/-- C8: stopping an id with no live handle returns true immediately,
raises nothing, performs no actions on any process, and leaves the
registry (hence every other handle) unchanged. -/
theorem stop_unknown_id_idempotent (reg : List (String × Handle)) (id : String)
    (o : StopOracle) (T : Nat) (hnone : regFind reg id = none) :
    stop_server reg id o T = (true, reg, []) := by
  simp [stop_server, hnone]

theorem stop_unknown_id_idempotent_witness :
    stop_server [("other", GSL.newHandle "O")] "ghost" ⟨none, false⟩ 15 =
      (true, [("other", GSL.newHandle "O")], []) :=
  stop_unknown_id_idempotent [("other", GSL.newHandle "O")] "ghost" ⟨none, false⟩ 15 (by decide)

/-- C9: starting an id that already maps to a handle whose process is
still alive is a logged no-op: nothing is raised, no process is spawned,
and the registry — including the existing handle's buffer, flag and
process — is returned unchanged. -/
theorem duplicate_start_noop (reg : List (String × Handle)) (id name : String)
    (isWin : Bool) (ex : String → Bool) (script : String) (h : Handle)
    (hreg : regFind reg id = some h) (halive : h.alive = true) :
    start_server reg id name isWin ex script = ⟨false, reg, false⟩ := by
  simp [start_server, hreg, halive]

theorem duplicate_start_noop_witness :
    start_server [("id1", ⟨"Srv", ["boot"], false, true⟩)] "id1" "Srv2" true
      (fun _ => true) "run.sh" =
      ⟨false, [("id1", ⟨"Srv", ["boot"], false, true⟩)], false⟩ :=
  duplicate_start_noop [("id1", ⟨"Srv", ["boot"], false, true⟩)] "id1" "Srv2" true
    (fun _ => true) "run.sh" ⟨"Srv", ["boot"], false, true⟩ (by decide) (by decide)

/-! ### String helper lemmas -/

theorem underscoreSpaces_append (a b : String) :
    underscoreSpaces (a ++ b) = underscoreSpaces a ++ underscoreSpaces b := by
  apply String.ext
  simp [underscoreSpaces, String.data_append]

theorem underscoreSpaces_latest_log :
    underscoreSpaces "-latest.log" = "-latest.log" := by decide

/-- C1: on an exit with stop-requested false the watcher delivers exactly
one synthetic marker line containing the exit code to the callback (none
when no callback was given), then overwrites the crash-log file — named
from the display name with spaces replaced by underscores and suffixed
`-latest.log` — with the full buffered console text; a write failure
leaves the file system untouched and, the function being total, raises
nothing.  With stop-requested true, no marker and no write occur. -/
theorem watch_process_unexpected_exit (h : Handle) (rc : Int)
    (fs : String → Option String) :
    (h.stop_requested = false →
      (∀ wf, (watch_process (some h) rc true wf fs).1 = [exitMarker rc])
      ∧ (∀ wf, (watch_process (some h) rc false wf fs).1 = [])
      ∧ (∀ cb, (watch_process (some h) rc cb false fs).2 =
          writeFile fs (underscoreSpaces h.name ++ "-latest.log")
            (joinLines h.stdout_lines))
      ∧ (∀ cb, (watch_process (some h) rc cb true fs).2 = fs))
    ∧ (h.stop_requested = true →
        ∀ cb wf, watch_process (some h) rc cb wf fs = ([], fs)) := by
  constructor
  · intro hsr
    have hname : underscoreSpaces (h.name ++ "-latest.log") =
        underscoreSpaces h.name ++ "-latest.log" := by
      rw [underscoreSpaces_append, underscoreSpaces_latest_log]
    refine ⟨?_, ?_, ?_, ?_⟩ <;> intro b <;>
      simp [watch_process, hsr, hname]
  · intro hsr cb wf
    simp [watch_process, hsr]

theorem watch_process_unexpected_exit_witness :
    (watch_process (some ⟨"My Srv", ["l1", "l2"], false, false⟩) 1 true false
        (fun _ => none)).1 = [exitMarker 1]
    ∧ (watch_process (some ⟨"My Srv", ["l1", "l2"], false, false⟩) 1 true false
        (fun _ => none)).2 =
      writeFile (fun _ => none) (underscoreSpaces "My Srv" ++ "-latest.log")
        (joinLines ["l1", "l2"]) :=
  ⟨((watch_process_unexpected_exit ⟨"My Srv", ["l1", "l2"], false, false⟩ 1
      (fun _ => none)).1 (by decide)).1 false,
   ((watch_process_unexpected_exit ⟨"My Srv", ["l1", "l2"], false, false⟩ 1
      (fun _ => none)).1 (by decide)).2.2.1 true⟩

/-- C7: `send_command` writes the text plus a line terminator to the live
process's standard input and returns true exactly when a handle is
registered, its process is still running, and at least one of the two
write attempts succeeds; in every other case it returns false and nothing
is delivered, and — the embedding being a total function — no exception
propagates.  (`hasStdin` is true for every process spawned by
`start_server`, which always opens a stdin pipe.) -/
theorem send_command_best_effort (reg : List (String × Handle)) (id : String)
    (o : SendOracle) (cmd : String) (hstdin : o.hasStdin = true) :
    ((send_command reg id o cmd).1 = true ↔
      ∃ h, regFind reg id = some h ∧ h.alive = true ∧
        (o.write1Fails = false ∨ o.write2Fails = false))
    ∧ ((send_command reg id o cmd).1 = true →
        (send_command reg id o cmd).2 = some (cmd ++ "\n"))
    ∧ ((send_command reg id o cmd).1 = false →
        (send_command reg id o cmd).2 = none) := by
  cases hfind : regFind reg id with
  | none => simp [send_command, hfind]
  | some h =>
    cases halive : h.alive <;> cases hw1 : o.write1Fails <;> cases hw2 : o.write2Fails <;>
      simp [send_command, hfind, sp_send_command, hstdin, halive, hw1, hw2]

theorem send_command_best_effort_witness :
    (send_command [("id1", ⟨"S", [], false, true⟩)] "id1" ⟨true, false, false, false⟩
      "say hi").1 = true
    ∧ (send_command [("id1", ⟨"S", [], false, true⟩)] "id1" ⟨true, false, false, false⟩
        "say hi").2 = some ("say hi" ++ "\n") := by
  have h := send_command_best_effort [("id1", ⟨"S", [], false, true⟩)] "id1"
    ⟨true, false, false, false⟩ "say hi" (by decide)
  have h1 : (send_command [("id1", ⟨"S", [], false, true⟩)] "id1"
      ⟨true, false, false, false⟩ "say hi").1 = true :=
    h.1.mpr ⟨⟨"S", [], false, true⟩, by decide, by decide, Or.inl (by decide)⟩
  exact ⟨h1, h.2.1 h1⟩

/-- C5 counterexample: the claim says a handle is removed from the live
registry exactly when restart replaces it or when an explicit stop
completes cleanup; but `stop_server` never deletes its registry entry.
Concretely: a registered server whose process exits immediately on the
graceful command is stopped cleanly (`stop` returns true, cleanup done),
yet its handle is still registered afterwards. -/
theorem stop_completed_handle_not_removed_cex :
    (stop_server [("id1", newHandle "Srv")] "id1" ⟨some 0, true⟩ 15).1 = true
    ∧ regFind (stop_server [("id1", newHandle "Srv")] "id1" ⟨some 0, true⟩ 15).2.1
        "id1" ≠ none := by decide

/-- C5 (amended): `get_console` returns the buffered lines joined with
line breaks whenever a handle is registered — with no condition on the
process still running, so a crashed-but-not-removed handle stays
queryable — and reports not-found exactly when no handle is registered;
`stop_server` never removes any handle from the registry (removal happens
only on the restart path). -/
theorem get_console_registry_semantics (reg : List (String × Handle))
    (id id' : String) (o : StopOracle) (T : Nat) :
    (∀ h, regFind reg id = some h →
      get_console reg id = some (joinLines h.stdout_lines))
    ∧ (regFind reg id = none → get_console reg id = none)
    ∧ (regFind (stop_server reg id o T).2.1 id').isSome =
        (regFind reg id').isSome := by
  refine ⟨?_, ?_, ?_⟩
  · intro h hfind
    simp [get_console, hfind]
  · intro hfind
    simp [get_console, hfind]
  · cases hfind : regFind reg id with
    | none => simp [stop_server, hfind]
    | some h =>
      by_cases hii : id' = id
      · subst hii
        simp [stop_server, hfind, regFind_regSet_self]
      · simp [stop_server, hfind, regFind_regSet_ne reg id id' _ hii]

theorem get_console_registry_semantics_witness :
    get_console [("id1", ⟨"Srv", ["a", "b"], true, false⟩)] "id1" =
      some (joinLines ["a", "b"]) :=
  (get_console_registry_semantics [("id1", ⟨"Srv", ["a", "b"], true, false⟩)]
    "id1" "id1" ⟨none, false⟩ 0).1 ⟨"Srv", ["a", "b"], true, false⟩ (by decide)

theorem stop_server_registry_shape (reg : List (String × Handle)) (id : String)
    (o : StopOracle) (T : Nat) (h0 : Handle) (hfind0 : regFind reg id = some h0) :
    ∃ b : Bool, (stop_server reg id o T).2.1 =
      regSet reg id { h0 with stop_requested := true, alive := b } := by
  refine ⟨!(if polled o (loopEndAux o 0 (5 * T)) then true else o.deadAfterKill), ?_⟩
  simp [stop_server, hfind0]

/-- C6: the stop-requested flag of a fresh handle is false; on the
intentional-stop path the flag set is the first observable action of
`stop_server`, strictly before the graceful command and before any kill
(both lie in the trace's tail, which contains no flag set); and no stop
ever resets a flag that is already true — the update only ever writes
true. -/
theorem stop_flag_discipline (n : String) (reg : List (String × Handle))
    (id id' : String) (o : StopOracle) (T : Nat) :
    (newHandle n).stop_requested = false
    ∧ (∀ h, regFind reg id = some h →
        (stop_server reg id o T).2.2.head? = some StopAction.setFlag
        ∧ StopAction.setFlag ∉ (stop_server reg id o T).2.2.tail)
    ∧ (∀ h h', regFind reg id' = some h → h.stop_requested = true →
        regFind (stop_server reg id o T).2.1 id' = some h' →
        h'.stop_requested = true) := by
  refine ⟨rfl, ?_, ?_⟩
  · intro h hfind
    constructor
    · simp [stop_server, hfind]
    · simp only [stop_server, hfind]
      simp only [List.tail_cons, List.mem_cons, List.mem_append, List.mem_replicate]
      intro hmem
      rcases hmem with hmem | hmem | hmem
      · exact absurd hmem (by decide)
      · exact absurd hmem.2 (by decide)
      · revert hmem
        split <;> simp
  · intro h h' hfind hflag hfind'
    cases hfind0 : regFind reg id with
    | none =>
      rw [show (stop_server reg id o T).2.1 = reg from by simp [stop_server, hfind0]]
        at hfind'
      rw [hfind] at hfind'
      injection hfind' with he
      rw [← he]
      exact hflag
    | some h0 =>
      obtain ⟨b, hb⟩ := stop_server_registry_shape reg id o T h0 hfind0
      by_cases hii : id' = id
      · subst hii
        rw [hb, regFind_regSet_self] at hfind'
        injection hfind' with he
        rw [← he]
      · rw [hb, regFind_regSet_ne reg id id' _ hii] at hfind'
        rw [hfind] at hfind'
        injection hfind' with he
        rw [← he]
        exact hflag

theorem stop_flag_discipline_witness :
    (newHandle "S").stop_requested = false
    ∧ (stop_server [("id1", newHandle "S")] "id1" ⟨some 0, true⟩ 15).2.2.head? =
        some StopAction.setFlag :=
  ⟨(stop_flag_discipline "S" [("id1", newHandle "S")] "id1" "id1"
      ⟨some 0, true⟩ 15).1,
   ((stop_flag_discipline "S" [("id1", newHandle "S")] "id1" "id1"
      ⟨some 0, true⟩ 15).2.1 (newHandle "S") (by decide)).1⟩

/-! ### Poll-loop lemmas -/

theorem polled_mono (o : StopOracle) {a b : Nat} (hab : a ≤ b)
    (ha : polled o a = true) : polled o b = true := by
  obtain ⟨et, dak⟩ := o
  cases et with
  | none => simp [polled] at ha
  | some e =>
    simp only [polled, decide_eq_true_eq] at ha ⊢
    omega

theorem loopEndAux_le (o : StopOracle) : ∀ (r t : Nat), loopEndAux o t r ≤ t + r := by
  intro r
  induction r with
  | zero => intro t; simp [loopEndAux]
  | succ r ih =>
    intro t
    simp only [loopEndAux]
    split
    · omega
    · have := ih (t + 1)
      omega

theorem loopEndAux_spec (o : StopOracle) : ∀ (r t : Nat),
    polled o (loopEndAux o t r) = true ∨ loopEndAux o t r = t + r := by
  intro r
  induction r with
  | zero => intro t; right; simp [loopEndAux]
  | succ r ih =>
    intro t
    simp only [loopEndAux]
    split
    · left; assumption
    · rcases ih (t + 1) with hp | hp
      · left; exact hp
      · right; omega

/-- C2: for a registered handle, stop first sends the graceful command
(the trace begins flag-set, graceful-send, before any sleep or kill),
then polls once per 0.2-second tick; with timeout 0 no sleep tick ever
occurs and, unless the process is already dead at the first poll, the
kill follows the graceful command immediately; if the process exits
within the grace period (some tick `k ≤ 5·timeout` observes the exit)
stop returns true with no kill in the trace; otherwise a kill is issued
and the result is exactly whether `poll()` confirms termination after the
kill attempt; the number of sleep ticks never exceeds `5·timeout`. -/
theorem stop_server_escalation (reg : List (String × Handle)) (id : String)
    (h : Handle) (o : StopOracle) (T : Nat) (hreg : regFind reg id = some h) :
    (∃ rest, (stop_server reg id o T).2.2 =
        StopAction.setFlag :: StopAction.sendGraceful :: rest)
    ∧ (T = 0 → StopAction.sleepTick ∉ (stop_server reg id o T).2.2)
    ∧ (T = 0 → polled o 0 = false →
        (stop_server reg id o T).2.2 =
          [StopAction.setFlag, StopAction.sendGraceful, StopAction.kill]
        ∧ (stop_server reg id o T).1 = o.deadAfterKill)
    ∧ ((∃ k, k ≤ 5 * T ∧ polled o k = true) →
        (stop_server reg id o T).1 = true
        ∧ StopAction.kill ∉ (stop_server reg id o T).2.2)
    ∧ (polled o (5 * T) = false →
        StopAction.kill ∈ (stop_server reg id o T).2.2
        ∧ (stop_server reg id o T).1 = o.deadAfterKill)
    ∧ (stop_server reg id o T).2.2.count StopAction.sleepTick ≤ 5 * T := by
  refine ⟨?_, ?_, ?_, ?_, ?_, ?_⟩
  · exact ⟨List.replicate (loopEndAux o 0 (5 * T)) StopAction.sleepTick ++
      if polled o (loopEndAux o 0 (5 * T)) then [] else [StopAction.kill],
      by simp [stop_server, hreg]⟩
  · intro hT
    subst hT
    have hend : loopEndAux o 0 (5 * 0) = 0 := rfl
    simp only [stop_server, hreg, hend]
    split <;> simp
  · intro hT hp
    subst hT
    have hend : loopEndAux o 0 0 = 0 := rfl
    simp [stop_server, hreg, hend, hp]
  · rintro ⟨k, hk, hpk⟩
    have hend : polled o (loopEndAux o 0 (5 * T)) = true := by
      rcases loopEndAux_spec o (5 * T) 0 with hp | hp
      · exact hp
      · rw [hp]
        exact polled_mono o (by omega) hpk
    constructor
    · simp [stop_server, hreg, hend]
    · simp [stop_server, hreg, hend, List.mem_append, List.mem_replicate]
  · intro hp5
    have hend : polled o (loopEndAux o 0 (5 * T)) = false := by
      by_contra hc
      have hc' : polled o (loopEndAux o 0 (5 * T)) = true := by
        revert hc
        cases polled o (loopEndAux o 0 (5 * T)) <;> simp
      have hle : loopEndAux o 0 (5 * T) ≤ 5 * T := by
        have := loopEndAux_le o (5 * T) 0
        omega
      have := polled_mono o hle hc'
      rw [hp5] at this
      exact Bool.false_ne_true this
    constructor
    · simp [stop_server, hreg, hend]
    · simp [stop_server, hreg, hend]
  · have hle : loopEndAux o 0 (5 * T) ≤ 5 * T := by
      have := loopEndAux_le o (5 * T) 0
      omega
    by_cases hp : polled o (loopEndAux o 0 (5 * T)) = true
    · simp [stop_server, hreg, hp, List.count_cons, List.count_append,
        List.count_replicate]
      omega
    · simp [stop_server, hreg, hp, List.count_cons, List.count_append,
        List.count_replicate]
      omega

theorem stop_server_escalation_witness :
    (stop_server [("id1", GSL.newHandle "S")] "id1" ⟨some 2, false⟩ 1).1 = true
    ∧ StopAction.kill ∉ (stop_server [("id1", GSL.newHandle "S")] "id1"
        ⟨some 2, false⟩ 1).2.2 :=
  (stop_server_escalation [("id1", GSL.newHandle "S")] "id1" (GSL.newHandle "S")
    ⟨some 2, false⟩ 1 (by decide)).2.2.2.1 ⟨2, by decide, by decide⟩

/-! ### Reader-loop lemmas -/

theorem dropWhile_nl_eq_self (l : List Char) (hl : '\n' ∉ l) :
    l.dropWhile (fun c => c == '\n') = l := by
  cases l with
  | nil => rfl
  | cons c cs =>
    have hc : (c == '\n') = false := by
      simp only [List.mem_cons, not_or] at hl
      exact beq_eq_false_iff_ne.mpr (fun he => hl.1 he.symm)
    rw [List.dropWhile_cons, hc]
    simp

theorem rstripNL_append_newline (s : String) (hs : '\n' ∉ s.data) :
    rstripNL (s ++ "\n") = s := by
  apply String.ext
  show ((s ++ "\n").data.reverse.dropWhile (fun c => c == '\n')).reverse = s.data
  have h1 : (s ++ "\n").data = s.data ++ ['\n'] := by
    rw [String.data_append]
  rw [h1, List.reverse_append]
  simp only [List.reverse_cons, List.reverse_nil, List.nil_append,
    List.singleton_append]
  rw [List.dropWhile_cons]
  simp only [beq_self_eq_true, if_true]
  rw [dropWhile_nl_eq_self s.data.reverse (by simpa using hs), List.reverse_reverse]

theorem chunk_newline_ne_empty (s : String) : s ++ "\n" ≠ "" := by
  intro he
  have h1 : (s ++ "\n").data = [] := by rw [he]
  rw [String.data_append] at h1
  simp at h1

theorem readerRun_lines_then (lines : List String) (tl : List ReadResult)
    (hnl : ∀ l ∈ lines, '\n' ∉ l.data) :
    readerRun (lines.map (fun l => ReadResult.chunk (l ++ "\n")) ++ tl)
      (fun _ => false) =
      (lines ++ (readerRun tl (fun _ => false)).1,
       lines ++ (readerRun tl (fun _ => false)).2.1,
       (readerRun tl (fun _ => false)).2.2) := by
  induction lines with
  | nil => simp
  | cons l ls ih =>
    simp only [List.map_cons, List.cons_append, readerRun]
    rw [if_neg (chunk_newline_ne_empty l)]
    simp only [Bool.false_eq_true, if_false]
    rw [rstripNL_append_newline l (hnl l (by simp))]
    simp only [List.append_eq]
    rw [ih (fun x hx => hnl x (by simp [hx]))]

/-- C4: the capture task processes one stream in order: writing lines
`l₁…lₙ` (each followed by its line terminator, which is stripped) yields
buffer and callback sequences both equal to `[l₁, …, lₙ]` — callback and
buffer order equal write order — after which end-of-stream ends the task
silently; a read error after the same lines ends the task with the error
logged and nothing more processed, with no exception escaping (the
function is total); and when the callback itself raises on a line, the
line has already been appended to the buffer but is not delivered, and
the task ends with the error logged. -/
theorem reader_line_delivery (lines : List String) (rest : List ReadResult)
    (s : String) (hnl : ∀ l ∈ lines, '\n' ∉ l.data)
    (hs : '\n' ∉ s.data) :
    readerRun (lines.map (fun l => ReadResult.chunk (l ++ "\n")) ++
        [ReadResult.chunk ""]) (fun _ => false) = (lines, lines, false)
    ∧ readerRun (lines.map (fun l => ReadResult.chunk (l ++ "\n")) ++
        ReadResult.raises :: rest) (fun _ => false) = (lines, lines, true)
    ∧ readerRun (ReadResult.chunk (s ++ "\n") :: rest) (fun t => t == s) =
        ([s], [], true) := by
  refine ⟨?_, ?_, ?_⟩
  · rw [readerRun_lines_then lines [ReadResult.chunk ""] hnl]
    simp [readerRun]
  · rw [readerRun_lines_then lines (ReadResult.raises :: rest) hnl]
    simp [readerRun]
  · simp only [readerRun]
    rw [if_neg (chunk_newline_ne_empty s)]
    rw [rstripNL_append_newline s hs]
    simp

theorem reader_line_delivery_witness :
    readerRun [ReadResult.chunk ("a" ++ "\n"), ReadResult.chunk ("b" ++ "\n"),
        ReadResult.chunk ("c" ++ "\n"), ReadResult.chunk ""] (fun _ => false) =
      (["a", "b", "c"], ["a", "b", "c"], false) :=
  (reader_line_delivery ["a", "b", "c"] [] "x" (by decide) (by decide)).1

/-! ### Restart lemmas -/

theorem start_server_fail_unknown (reg : List (String × Handle)) (id name : String)
    (isWin : Bool) (ex : String → Bool) (script : String)
    (hfind : regFind reg id = none) (hres : resolveScript isWin ex script = none) :
    start_server reg id name isWin ex script = ⟨true, reg, false⟩ := by
  simp [start_server, hfind, hres]

theorem nodup_keys_stop (reg : List (String × Handle)) (id : String)
    (o : StopOracle) (T : Nat) (hnd : (regKeys reg).Nodup) :
    (regKeys (stop_server reg id o T).2.1).Nodup := by
  cases hfind : regFind reg id with
  | none => simpa [stop_server, hfind] using hnd
  | some h =>
    obtain ⟨b, hb⟩ := stop_server_registry_shape reg id o T h hfind
    rw [hb]
    exact nodup_keys_regSet reg id _ hnd

/-- C10: restart is not atomic on failure — with a registry whose keys
are distinct (as in a Python dict), restarting an id whose start script
cannot be resolved propagates the script-not-found error, and leaves the
id with no handle at all: the old entry was removed unconditionally
before the failed fresh start, so `is_running` is false and `get_console`
reports not-found, and the previous process's handle is neither retained
nor restored. -/
theorem restart_not_atomic_on_failure (reg : List (String × Handle))
    (id name : String) (isWin : Bool) (ex : String → Bool) (script : String)
    (o : StopOracle) (ks : Bool) (hnd : (regKeys reg).Nodup)
    (hres : resolveScript isWin ex script = none) :
    (restart_server reg id name isWin ex script o ks).raised = true
    ∧ regFind (restart_server reg id name isWin ex script o ks).reg id = none
    ∧ is_running (restart_server reg id name isWin ex script o ks).reg id = false
    ∧ get_console (restart_server reg id name isWin ex script o ks).reg id =
        none := by
  have hnd1 : (regKeys (stop_server reg id o 15).2.1).Nodup :=
    nodup_keys_stop reg id o 15 hnd
  have key : ∀ (r2 : List (String × Handle)), (regKeys r2).Nodup →
      (start_server (regErase r2 id) id name isWin ex script).raised = true
      ∧ regFind (start_server (regErase r2 id) id name isWin ex script).reg id =
          none
      ∧ is_running (start_server (regErase r2 id) id name isWin ex script).reg id =
          false
      ∧ get_console (start_server (regErase r2 id) id name isWin ex script).reg id =
          none := by
    intro r2 hnd2
    have hf := regFind_regErase_self r2 id hnd2
    rw [start_server_fail_unknown (regErase r2 id) id name isWin ex script hf hres]
    exact ⟨rfl, hf, by simp [is_running, hf], by simp [get_console, hf]⟩
  simp only [restart_server]
  apply key
  by_cases hstop : (stop_server reg id o 15).1 = true
  · simpa [hstop] using hnd1
  · cases hfind : regFind (stop_server reg id o 15).2.1 id with
    | none => simpa [hstop, hfind] using hnd1
    | some hh =>
      by_cases ha : hh.alive = true
      · simpa [hstop, hfind, ha] using nodup_keys_regSet _ id _ hnd1
      · simpa [hstop, hfind, ha] using hnd1

theorem restart_not_atomic_on_failure_witness :
    (restart_server [("id1", ⟨"S", ["boot"], false, true⟩)] "id1" "S" false
      (fun _ => false) "run.sh" ⟨some 0, true⟩ true).raised = true
    ∧ regFind (restart_server [("id1", ⟨"S", ["boot"], false, true⟩)] "id1" "S"
        false (fun _ => false) "run.sh" ⟨some 0, true⟩ true).reg "id1" = none :=
  ⟨(restart_not_atomic_on_failure [("id1", ⟨"S", ["boot"], false, true⟩)] "id1" "S"
      false (fun _ => false) "run.sh" ⟨some 0, true⟩ true (by decide) (by decide)).1,
   (restart_not_atomic_on_failure [("id1", ⟨"S", ["boot"], false, true⟩)] "id1" "S"
      false (fun _ => false) "run.sh" ⟨some 0, true⟩ true (by decide) (by decide)).2.1⟩

end GSL
